import Mathlib

/-
  Verification development for the LOC image retriever
  (src/loc_image_retriever/retriever.py).

  The Python functions create_filename, create_filepath and create_url, and
  the retrieval loop of main, are shallowly embedded below.  Python strings
  are Lean String; Python truthiness of the optional arguments is modelled
  by the empty string (for str-valued fields) and 0 (for the int year),
  matching the `if x:` tests in the source.  pathlib.Path values are kept as
  their POSIX string form; the filenames built here are treated as path
  names (the embedding assumes no path separator inside a single name, which
  is how every name reaching Path.with_suffix in the source is used).
  Character codes: 43 is the plus sign, 45 the minus sign, 46 the dot,
  47 the slash, 48 the digit zero, 58 the colon.
-/

namespace Retriever

/-- Python str.zfill: left-pad with the character 0 up to width w,
    inserting the padding after a leading sign character. -/
def zfill (s : String) (w : Nat) : String :=
  if w ≤ s.length then s
  else
    match s.data with
    | [] => ⟨List.replicate (w - s.length) (Char.ofNat 48)⟩
    | c :: rest =>
      if c = Char.ofNat 43 ∨ c = Char.ofNat 45 then
        ⟨c :: (List.replicate (w - s.length) (Char.ofNat 48) ++ rest)⟩
      else ⟨List.replicate (w - s.length) (Char.ofNat 48) ++ (c :: rest)⟩

/-- Index of the last occurrence of the dot character in a list, if any. -/
def lastDotAux : List Char → Option Nat
  | [] => none
  | c :: rest =>
    match lastDotAux rest with
    | some k => some (k + 1)
    | none => if c = Char.ofNat 46 then some 0 else none

/-- Embedding of pathlib.Path.with_suffix applied to a path whose name is
    the whole string, with the suffix written as a dot followed by format
    (the source always calls it that way).  with_suffix raises ValueError on
    an empty name (and on the dot names whose pathlib name is empty) and on
    an invalid suffix; those cases return none.  Otherwise the portion from
    the last dot onward, when that dot is neither first nor last, is
    replaced by the new suffix; else the suffix is appended. -/
def with_suffix_dot (name : String) (format : String) : Option String :=
  if name = "" ∨ name = "." ∨ name = ".." then none
  else if format = "" then none
  else if Char.ofNat 47 ∈ format.data then none
  else
    match lastDotAux name.data with
    | some i =>
      if 0 < i ∧ i < name.length - 1 then some (⟨name.data.take i⟩ ++ "." ++ format)
      else some (name ++ "." ++ format)
    | none => some (name ++ "." ++ format)

/-- Tail part of the Python join: every further element preceded by the
    dash separator. -/
def joinDashAux : List String → String
  | [] => ""
  | x :: xs => "-" ++ x ++ joinDashAux xs

/-- Embedding of the join of a string list on the dash separator. -/
def joinDash : List String → String
  | [] => ""
  | x :: xs => x ++ joinDashAux xs

/-- Filename segment configuration of one map: the ordered literal name
    parts plus the optional year and volume.  A year of 0 and an empty
    volume stand for the absent (falsy) values of the Python dict. -/
structure NameSegments where
  name : List String
  year : Nat
  vol : String

/-- Volume token appended to filenames. -/
def vol_token (v : String) : String := "vol_" ++ v

/-- Numeric token appended to non-log filenames: indices shorter than four
    characters are left-padded with 0 to length four, longer ones are kept. -/
def num_token (num : String) : String :=
  if num.length < 4 then zfill num 4 else num

/-- Segment list assembled by create_filename before joining: literal name
    parts, then the year and volume when truthy; the log format stops
    there, any other format appends the volume again when truthy, then the
    truthy part and the (possibly padded) truthy index. -/
def create_filename_segs (ns : NameSegments) (part num : String)
    (format : String) : List String :=
  let base := ns.name ++ (if ns.year ≠ 0 then [toString ns.year] else [])
    ++ (if ns.vol ≠ "" then [vol_token ns.vol] else [])
  if format = "log" then base
  else base ++ (if ns.vol ≠ "" then [vol_token ns.vol] else [])
    ++ (if part ≠ "" then [part] else [])
    ++ (if num ≠ "" then [num_token num] else [])

/-- Embedding of create_filename: join the assembled segments on dashes and
    apply with_suffix with the dot-prefixed format.  Returns none exactly
    when Path.with_suffix raises. -/
def create_filename (ns : NameSegments) (part num : String)
    (format : String) : Option String :=
  with_suffix_dot (joinDash (create_filename_segs ns part num format)) format

/-- A string is an absolute POSIX path when its first character is the
    path separator. -/
def isAbsPath (s : String) : Bool := s.data.head? == some (Char.ofNat 47)

/-- Whether a path string already ends in the separator; computed on the
    reversed character list. -/
def endsWithSlash (s : String) : Bool := s.data.reverse.head? == some (Char.ofNat 47)

/-- Joining of one further component onto a path, as pathlib does when
    Path is given several arguments: an absolute component discards what
    came before it, an empty component is dropped, and otherwise a single
    separator is inserted unless one is already present. -/
def joinComponent (a b : String) : String :=
  if isAbsPath b then b
  else if b = "" then a
  else if a = "" then b
  else if endsWithSlash a then a ++ b
  else a ++ "/" ++ b

/-- Embedding of create_filepath, which returns Path(Path.cwd(),
    output_path, filename); the current working directory is an explicit
    argument here. -/
def create_filepath (cwd output_path filename : String) : String :=
  joinComponent (joinComponent cwd output_path) filename

/-- Final path component: the characters after the last separator. -/
def finalComponent (s : String) : String :=
  ⟨(s.data.reverse.takeWhile (fun c => c != Char.ofNat 47)).reverse⟩

/-- CLI options resolved by the argument parsing collaborator, as used by
    create_url.  The size and rotation values are kept in the string form
    that str() produces for them in the source. -/
structure ParserArgs where
  format : String
  region : String
  size : String
  rotation_degrees : String
  quality : String
deriving DecidableEq

/-- Run configuration from the YAML document: network parts plus the
    service-path mapping from format to path segment, modelled as a partial
    map so that an unconfigured format is a missing dict key. -/
structure Config where
  protocol : String
  subdomain : String
  domain : String
  service_path : String → Option String

/-- Replacement of every colon by a slash; str.replace with a
    one-character pattern is a character map. -/
def replace_colon (s : String) : String :=
  ⟨s.data.map (fun c => if c = Char.ofNat 58 then Char.ofNat 47 else c)⟩

/-- Number of colons in a string. -/
def countColon (s : String) : Nat := s.data.count (Char.ofNat 58)

/-- Embedding of create_url.  The raw-format branch serves gif, jp2 and
    tif; every other format goes through the tiled-image branch.  The
    result is none exactly when the service_path lookup raises KeyError. -/
def create_url (opts : ParserArgs) (config : Config)
    (gmd idPrefix num : String) : Option String :=
  if opts.format = "gif" ∨ opts.format = "jp2" ∨ opts.format = "tif" then
    (config.service_path opts.format).map (fun sp =>
      config.protocol ++ "://" ++ config.subdomain ++ "." ++ config.domain
        ++ "/" ++ sp ++ "/" ++ replace_colon gmd ++ "/" ++ idPrefix ++ num
        ++ "." ++ opts.format)
  else
    (config.service_path opts.format).map (fun sp =>
      config.protocol ++ "://" ++ config.subdomain ++ "." ++ config.domain
        ++ "/" ++ sp ++ ":" ++ gmd ++ ":" ++ idPrefix ++ num
        ++ "/" ++ opts.region ++ "/pct:" ++ opts.size
        ++ "/" ++ opts.rotation_degrees ++ "/" ++ opts.quality
        ++ "." ++ opts.format)

/-- Index range of one path segment from the YAML document. -/
structure IndexRange where
  start : Int
  stop : Int
  zfill_width : Int
deriving DecidableEq

/-- One path segment of a map configuration. -/
structure PathSegment where
  gmd : String
  idPrefix : String
  part : String
  index : IndexRange
deriving DecidableEq

/-- Python range(start, stop, 1) over the integers. -/
def intRange (start stop : Int) : List Int :=
  (List.range (stop - start).toNat).map (fun k => start + k)

/-- Numeric token of the loop body: str(i), zero-filled when the
    configured width is positive. -/
def loop_num (seg : PathSegment) (i : Int) : String :=
  if seg.index.zfill_width > 0 then zfill (toString i) seg.index.zfill_width.toNat
  else toString i

/-- Outcome of one requests.get call: a raised transport exception, or a
    response carrying an HTTP status code.  The source never inspects the
    status. -/
inductive FetchResult
  | exn
  | resp (status : Nat)
deriving DecidableEq

/-- Observable steps of the retrieval loop. -/
inductive RunEvent
  | fetched (url : String) (result : FetchResult)
  | wrote (filepath : String)
  | configError
  | nameError
deriving DecidableEq

/-- Ambient state of one run of main: resolved CLI options, configuration,
    filename segments of the chosen map, working directory, output
    directory, and the transport as an oracle from URL to outcome. -/
structure RunCtx where
  opts : ParserArgs
  config : Config
  fsegs : NameSegments
  cwd : String
  output : String
  fetch : String → FetchResult

/-- URL built for one segment and index, as in the loop body. -/
def url_of (ctx : RunCtx) (seg : PathSegment) (i : Int) : Option String :=
  create_url ctx.opts ctx.config seg.gmd seg.idPrefix (loop_num seg i)

/-- The retrieval loop over an explicit worklist of segment-index pairs.
    Each iteration builds the URL, performs the fetch, derives the
    filename and path, and writes the body; an exception from any of these
    steps aborts the whole run, while a response with any status code,
    success or not, is written out and the loop moves on.  This mirrors the
    body of main, which never checks response.status_code. -/
def runPairs (ctx : RunCtx) : List (PathSegment × Int) → List RunEvent
  | [] => []
  | (seg, i) :: rest =>
    match url_of ctx seg i with
    | none => [RunEvent.configError]
    | some url =>
      match ctx.fetch url with
      | FetchResult.exn => [RunEvent.fetched url FetchResult.exn]
      | FetchResult.resp status =>
        match create_filename ctx.fsegs seg.part (loop_num seg i) ctx.opts.format with
        | none => [RunEvent.fetched url (FetchResult.resp status), RunEvent.nameError]
        | some fn =>
          RunEvent.fetched url (FetchResult.resp status)
            :: RunEvent.wrote (create_filepath ctx.cwd ctx.output fn)
            :: runPairs ctx rest

/-- Worklist enumerated by the two nested loops of main: every index of
    every path segment, in order. -/
def segmentPairs (segs : List PathSegment) : List (PathSegment × Int) :=
  (segs.map (fun s => (intRange s.index.start s.index.stop).map (fun i => (s, i)))).flatten

/-- The whole retrieval phase of main. -/
def runRetrieval (ctx : RunCtx) (segs : List PathSegment) : List RunEvent :=
  runPairs ctx (segmentPairs segs)

/-- An iteration completes without an exception: the URL resolves, the
    fetch returns a response, and the filename builds. -/
def pairOk (ctx : RunCtx) (p : PathSegment × Int) : Bool :=
  match url_of ctx p.1 p.2 with
  | none => false
  | some url =>
    match ctx.fetch url with
    | FetchResult.exn => false
    | FetchResult.resp _ =>
      (create_filename ctx.fsegs p.1.part (loop_num p.1 p.2) ctx.opts.format).isSome

/-- Concrete run state used to exercise the retrieval loop on a transport
    that answers every URL with HTTP status 404. -/
def notFoundCtx : RunCtx :=
  ⟨⟨"jpg", "full", "25", "0", "default"⟩,
   ⟨"https", "tile", "loc.gov", fun f => if f = "jpg" then some "isvc" else none⟩,
   ⟨["m"], 0, ""⟩, "/cwd", "out", fun _ => FetchResult.resp 404⟩

/-- Concrete run state whose transport raises on every URL. -/
def exnCtx : RunCtx :=
  ⟨⟨"jpg", "full", "25", "0", "default"⟩,
   ⟨"https", "tile", "loc.gov", fun f => if f = "jpg" then some "isvc" else none⟩,
   ⟨["m"], 0, ""⟩, "/cwd", "out", fun _ => FetchResult.exn⟩

/-- Concrete two-index path segment used with the run states above. -/
def twoIndexSeg : PathSegment := ⟨"g", "p", "", ⟨0, 2, 0⟩⟩

/-- Data of the concatenation of two strings. -/
theorem data_append (a b : String) : (a ++ b).data = a.data ++ b.data := by
  cases a; cases b; rfl

/-- A string is determined by its character list. -/
theorem mk_data (s : String) : String.mk s.data = s := by
  cases s; rfl

/-- String length is the length of the underlying character list. -/
theorem length_data (s : String) : s.length = s.data.length := by
  cases s; rfl

/-- Length of a string built from a character list. -/
theorem length_mk (l : List Char) : (String.mk l).length = l.length := rfl

/-- A string is empty exactly when its character list is. -/
theorem eq_empty_iff_data (s : String) : s = "" ↔ s.data = [] := by
  constructor
  · intro h; rw [h]
  · intro h
    cases s
    rw [show ([] : List Char) = ("" : String).data from rfl] at h
    exact congrArg String.mk h

/-- String append is associative. -/
theorem strAppend_assoc (a b c : String) : a ++ b ++ c = a ++ (b ++ c) := by
  cases a; cases b; cases c
  show String.mk _ = String.mk _
  rw [List.append_assoc]

/-- The empty string is a right identity for append. -/
theorem strAppend_empty (a : String) : a ++ "" = a := by
  cases a
  show String.mk _ = String.mk _
  rw [List.append_nil]

/-- The empty string is a left identity for append. -/
theorem strEmpty_append (a : String) : "" ++ a = a := by
  cases a
  rfl

/-- zfill pads exactly up to the requested width. -/
theorem zfill_length (s : String) (w : Nat) : (zfill s w).length = max s.length w := by
  unfold zfill
  by_cases h : w ≤ s.length
  · rw [if_pos h, Nat.max_eq_left h]
  · rw [if_neg h]
    have hlt : s.length < w := Nat.lt_of_not_le h
    cases hd : s.data with
    | nil =>
      have hlen : s.length = 0 := by rw [length_data, hd]; rfl
      simp only [length_mk, List.length_replicate]
      omega
    | cons c rest =>
      have hlen : s.length = rest.length + 1 := by
        rw [length_data, hd, List.length_cons]
      by_cases hs : c = Char.ofNat 43 ∨ c = Char.ofNat 45
      · simp only [hs, if_true, length_mk, List.length_cons, List.length_append,
          List.length_replicate]
        omega
      · simp only [hs, if_false, length_mk, List.length_append, List.length_cons,
          List.length_replicate]
        omega

/-- A dot-free list has no last dot. -/
theorem lastDotAux_eq_none (l : List Char)
    (h : ∀ c ∈ l, c ≠ Char.ofNat 46) : lastDotAux l = none := by
  induction l with
  | nil => rfl
  | cons c rest ih =>
    have hc : c ≠ Char.ofNat 46 := h c (List.mem_cons_self c rest)
    have hrest : lastDotAux rest = none :=
      ih (fun x hx => h x (List.mem_cons_of_mem c hx))
    simp [lastDotAux, hrest, hc]

/-- When the name has no dot at all (hence is neither the empty name nor a
    dot name once nonempty), with_suffix simply appends the new suffix. -/
theorem with_suffix_dot_no_dot (name format : String)
    (hne : name ≠ "")
    (hnd : ∀ c ∈ name.data, c ≠ Char.ofNat 46)
    (hf : format ≠ "")
    (hfs : Char.ofNat 47 ∉ format.data) :
    with_suffix_dot name format = some (name ++ "." ++ format) := by
  have h1 : name ≠ "." := by
    intro h
    exact hnd (Char.ofNat 46) (by rw [h]; decide) rfl
  have h2 : name ≠ ".." := by
    intro h
    exact hnd (Char.ofNat 46) (by rw [h]; decide) rfl
  unfold with_suffix_dot
  rw [if_neg (by simp [hne, h1, h2]), if_neg hf, if_neg hfs,
    lastDotAux_eq_none name.data hnd]

/-- Any successful with_suffix result is some stem followed by the dot and
    the format. -/
theorem with_suffix_dot_shape (name format s : String)
    (h : with_suffix_dot name format = some s) :
    ∃ a, s = a ++ "." ++ format := by
  unfold with_suffix_dot at h
  split at h
  · exact absurd h (by simp)
  · split at h
    · exact absurd h (by simp)
    · split at h
      · exact absurd h (by simp)
      · split at h
        · split at h
          · injection h with h; exact ⟨_, h.symm⟩
          · injection h with h; exact ⟨_, h.symm⟩
        · injection h with h; exact ⟨_, h.symm⟩

/-- A built filename is never the empty string. -/
theorem create_filename_ne_empty (ns : NameSegments) (part num format fname : String)
    (h : create_filename ns part num format = some fname) : fname ≠ "" := by
  obtain ⟨a, ha⟩ := with_suffix_dot_shape _ _ _ h
  intro hemp
  rw [hemp] at ha
  have hd : ([] : List Char) = a.data ++ [Char.ofNat 46] ++ format.data := by
    have hc := congrArg String.data ha
    rw [data_append, data_append] at hc
    exact hc
  have hlen : (a.data ++ [Char.ofNat 46] ++ format.data).length = 0 := by
    rw [← hd]
    rfl
  simp only [List.length_append, List.length_cons, List.length_nil] at hlen
  omega

/-- The dash-join tail distributes over list concatenation. -/
theorem joinDashAux_append (l1 l2 : List String) :
    joinDashAux (l1 ++ l2) = joinDashAux l1 ++ joinDashAux l2 := by
  induction l1 with
  | nil => rw [List.nil_append, joinDashAux, strEmpty_append]
  | cons x xs ih =>
    rw [List.cons_append, joinDashAux, joinDashAux, ih,
      strAppend_assoc, strAppend_assoc, strAppend_assoc]

/-- The join of a concatenation extends the join of the first list. -/
theorem joinDash_append_exists (l1 l2 : List String) :
    ∃ t, joinDash (l1 ++ l2) = joinDash l1 ++ t := by
  cases l1 with
  | nil => exact ⟨joinDash l2, by rw [List.nil_append, joinDash, strEmpty_append]⟩
  | cons x xs =>
    refine ⟨joinDashAux l2, ?_⟩
    rw [List.cons_append, joinDash, joinDash, joinDashAux_append, strAppend_assoc]

/-- takeWhile runs through a satisfying block and stops at the first
    failing element. -/
theorem takeWhile_append_stop (p : Char → Bool) (l r : List Char) (c : Char)
    (hl : ∀ x ∈ l, p x = true) (hc : p c = false) :
    (l ++ c :: r).takeWhile p = l := by
  induction l with
  | nil => simp [List.takeWhile_cons, hc]
  | cons x xs ih =>
    have hx : p x = true := hl x (List.mem_cons_self x xs)
    rw [List.cons_append, List.takeWhile_cons, hx,
      ih (fun y hy => hl y (List.mem_cons_of_mem x hy))]
    simp

/-- An absolute path is nonempty. -/
theorem isAbsPath_ne_empty (s : String) (h : isAbsPath s = true) : s ≠ "" := by
  intro he
  rw [he] at h
  exact absurd h (by decide)

/-- An absolute path stays absolute under appending. -/
theorem isAbsPath_append (a b : String) (ha : isAbsPath a = true) :
    isAbsPath (a ++ b) = true := by
  unfold isAbsPath at ha ⊢
  rw [data_append]
  cases hd : a.data with
  | nil => rw [hd] at ha; exact absurd ha (by decide)
  | cons c t => rw [hd] at ha; simpa using ha

/-- A string without the separator character is not an absolute path. -/
theorem not_absPath_of_no_slash (s : String)
    (h : ∀ c ∈ s.data, c ≠ Char.ofNat 47) : isAbsPath s = false := by
  unfold isAbsPath
  cases hd : s.data with
  | nil => rfl
  | cons c t =>
    have hc : c ≠ Char.ofNat 47 := h c (by rw [hd]; exact List.mem_cons_self c t)
    simpa using hc

/-- Appending a nonempty component moves the slash test to the new tail. -/
theorem endsWithSlash_append (a b : String) (hb : b ≠ "") :
    endsWithSlash (a ++ b) = endsWithSlash b := by
  unfold endsWithSlash
  rw [data_append, List.reverse_append]
  cases hr : b.data.reverse with
  | nil =>
    exact absurd ((eq_empty_iff_data b).mpr (by
      have := congrArg List.reverse hr
      rwa [List.reverse_reverse] at this)) hb
  | cons c t => simp

/-- The final component after appending a separator-free name to a path
    ending in the separator is that name. -/
theorem finalComponent_append_slash (a b : String)
    (ha : endsWithSlash a = true)
    (hb : ∀ c ∈ b.data, c ≠ Char.ofNat 47) :
    finalComponent (a ++ b) = b := by
  obtain ⟨t, ht⟩ : ∃ t, a.data.reverse = Char.ofNat 47 :: t := by
    unfold endsWithSlash at ha
    cases hr : a.data.reverse with
    | nil => rw [hr] at ha; exact absurd ha (by decide)
    | cons c u =>
      rw [hr] at ha
      have : c = Char.ofNat 47 := by simpa using ha
      exact ⟨u, by rw [this]⟩
  unfold finalComponent
  rw [data_append, List.reverse_append, ht,
    takeWhile_append_stop _ _ _ _
      (fun x hx => by
        have : x ∈ b.data := List.mem_reverse.mp hx
        simpa using hb x this)
      (by decide),
    List.reverse_reverse, mk_data]

/-- Joining a nonempty separator-free component onto a nonempty path keeps
    the root of the path and ends in that component. -/
theorem joinComponent_final (a b : String) (hane : a ≠ "")
    (hbne : b ≠ "") (hb : ∀ c ∈ b.data, c ≠ Char.ofNat 47) :
    finalComponent (joinComponent a b) = b
    ∧ (isAbsPath a = true → isAbsPath (joinComponent a b) = true) := by
  have habs : isAbsPath b = false := not_absPath_of_no_slash b hb
  unfold joinComponent
  rw [habs, if_neg (by decide : ¬false = true), if_neg hbne, if_neg hane]
  by_cases hsl : endsWithSlash a = true
  · rw [if_pos hsl]
    exact ⟨finalComponent_append_slash a b hsl hb,
      fun h => isAbsPath_append a b h⟩
  · rw [if_neg hsl]
    constructor
    · refine finalComponent_append_slash (a ++ "/") b ?_ hb
      rw [endsWithSlash_append a "/" (by decide)]
      decide
    · intro h
      exact isAbsPath_append _ _ (isAbsPath_append a "/" h)

/-- A run whose leading iterations all complete splits into the events of
    those iterations followed by the events of the remaining worklist. -/
theorem runPairs_append (ctx : RunCtx) (l1 l2 : List (PathSegment × Int))
    (h : ∀ p ∈ l1, pairOk ctx p = true) :
    runPairs ctx (l1 ++ l2) = runPairs ctx l1 ++ runPairs ctx l2 := by
  induction l1 with
  | nil => rw [List.nil_append, runPairs, List.nil_append]
  | cons p rest ih =>
    obtain ⟨seg, i⟩ := p
    have hp : pairOk ctx (seg, i) = true := h _ (List.mem_cons_self _ _)
    have hrest : ∀ q ∈ rest, pairOk ctx q = true :=
      fun q hq => h q (List.mem_cons_of_mem _ hq)
    cases hu : url_of ctx seg i with
    | none => exact absurd hp (by simp [pairOk, hu])
    | some url =>
      cases hf : ctx.fetch url with
      | exn => exact absurd hp (by simp [pairOk, hu, hf])
      | resp status =>
        cases hn : create_filename ctx.fsegs seg.part (loop_num seg i) ctx.opts.format with
        | none => exact absurd hp (by simp [pairOk, hu, hf, hn])
        | some fn =>
          rw [List.cons_append]
          simp only [runPairs, hu, hf, hn, ih hrest, List.cons_append]

/-- Colon counting distributes over string concatenation. -/
theorem countColon_append (a b : String) :
    countColon (a ++ b) = countColon a + countColon b := by
  unfold countColon
  rw [data_append, List.count_append]

/-- C1: on the example inputs (name parts atlas and ward1, year 1925,
    volume 2, part a, index 7, format jpg) the filename builder returns
    exactly atlas-ward1-1925-vol_2-vol_2-a-0007.jpg; and for every non-log
    format with a volume present, the segment list joined into the
    filename carries two adjacent copies of the volume token, so the token
    appears twice in the result. -/
theorem C1_example_and_double_volume :
    create_filename ⟨["atlas", "ward1"], 1925, "2"⟩ "a" "7" "jpg"
      = some "atlas-ward1-1925-vol_2-vol_2-a-0007.jpg"
    ∧ ∀ (ns : NameSegments) (part num format : String),
        format ≠ "log" → ns.vol ≠ "" →
        ∃ l1 l2, create_filename_segs ns part num format
          = l1 ++ [vol_token ns.vol, vol_token ns.vol] ++ l2 := by
  refine ⟨by decide, ?_⟩
  intro ns part num format hf hv
  refine ⟨ns.name ++ (if ns.year ≠ 0 then [toString ns.year] else []),
    (if part ≠ "" then [part] else [])
      ++ (if num ≠ "" then [num_token num] else []), ?_⟩
  simp [create_filename_segs, hf, hv, List.append_assoc]

/-- Witness for C1 at the example input. -/
theorem C1_example_and_double_volume_witness :
    ∃ l1 l2, create_filename_segs ⟨["atlas", "ward1"], 1925, "2"⟩ "a" "7" "jpg"
      = l1 ++ [vol_token "2", vol_token "2"] ++ l2 :=
  C1_example_and_double_volume.2 ⟨["atlas", "ward1"], 1925, "2"⟩ "a" "7" "jpg"
    (by decide) (by decide)

/-- C3: raw-format URLs (gif, jp2, tif) follow the raw template in which
    every colon of the gmd is replaced by a slash, so the gmd-derived
    portion of the URL is colon-free; and the example inputs produce
    exactly the expected tif URL. -/
theorem C3_raw_format_url :
    create_url ⟨"tif", "", "", "", ""⟩
        ⟨"https", "tile", "loc.gov", fun f => if f = "tif" then some "tif" else none⟩
        "g3290:g3290" "ct000" "003"
      = some "https://tile.loc.gov/tif/g3290/g3290/ct000003.tif"
    ∧ ∀ (opts : ParserArgs) (config : Config) (gmd idPrefix num sp : String),
        (opts.format = "gif" ∨ opts.format = "jp2" ∨ opts.format = "tif") →
        config.service_path opts.format = some sp →
        create_url opts config gmd idPrefix num
          = some (config.protocol ++ "://" ++ config.subdomain ++ "." ++ config.domain
              ++ "/" ++ sp ++ "/" ++ replace_colon gmd ++ "/" ++ idPrefix ++ num
              ++ "." ++ opts.format)
          ∧ countColon (replace_colon gmd) = 0 := by
  refine ⟨by decide, ?_⟩
  intro opts config gmd idPrefix num sp hfmt hsp
  refine ⟨?_, ?_⟩
  · unfold create_url
    rw [if_pos hfmt, hsp]
    rfl
  · show (gmd.data.map
      (fun c => if c = Char.ofNat 58 then Char.ofNat 47 else c)).count
        (Char.ofNat 58) = 0
    rw [List.count_eq_zero]
    intro hmem
    rw [List.mem_map] at hmem
    obtain ⟨c, hc, heq⟩ := hmem
    by_cases h : c = Char.ofNat 58
    · rw [if_pos h] at heq
      exact absurd heq (by decide)
    · rw [if_neg h] at heq
      exact h heq

/-- Witness for C3 at the example input. -/
theorem C3_raw_format_url_witness :
    create_url ⟨"tif", "", "", "", ""⟩
        ⟨"https", "tile", "loc.gov", fun f => if f = "tif" then some "tif" else none⟩
        "g3290:g3290" "ct000" "003"
      = some ("https" ++ "://" ++ "tile" ++ "." ++ "loc.gov"
          ++ "/" ++ "tif" ++ "/" ++ replace_colon "g3290:g3290" ++ "/" ++ "ct000" ++ "003"
          ++ "." ++ "tif")
    ∧ countColon (replace_colon "g3290:g3290") = 0 :=
  C3_raw_format_url.2 ⟨"tif", "", "", "", ""⟩
    ⟨"https", "tile", "loc.gov", fun f => if f = "tif" then some "tif" else none⟩
    "g3290:g3290" "ct000" "003" "tif" (by decide) (by decide)

/-- C4: URLs for every format outside gif, jp2 and tif follow the
    tiled-image template, and between the scheme separator and the region
    segment there are exactly two colons, the separators around the gmd,
    provided the configured components carry no colon of their own. -/
theorem C4_tiled_url :
    ∀ (opts : ParserArgs) (config : Config) (gmd idPrefix num sp : String),
      ¬(opts.format = "gif" ∨ opts.format = "jp2" ∨ opts.format = "tif") →
      config.service_path opts.format = some sp →
      create_url opts config gmd idPrefix num
        = some (config.protocol ++ "://"
            ++ (config.subdomain ++ "." ++ config.domain ++ "/" ++ sp ++ ":" ++ gmd
              ++ ":" ++ idPrefix ++ num)
            ++ "/" ++ opts.region ++ "/pct:" ++ opts.size
            ++ "/" ++ opts.rotation_degrees ++ "/" ++ opts.quality ++ "." ++ opts.format)
      ∧ (countColon config.subdomain = 0 → countColon config.domain = 0 →
         countColon sp = 0 → countColon gmd = 0 → countColon idPrefix = 0 →
         countColon num = 0 →
         countColon (config.subdomain ++ "." ++ config.domain ++ "/" ++ sp ++ ":" ++ gmd
           ++ ":" ++ idPrefix ++ num) = 2) := by
  intro opts config gmd idPrefix num sp hfmt hsp
  refine ⟨?_, ?_⟩
  · unfold create_url
    rw [if_neg hfmt, hsp]
    simp only [strAppend_assoc]
    rfl
  · intro h1 h2 h3 h4 h5 h6
    simp only [countColon_append, h1, h2, h3, h4, h5, h6]
    decide

/-- Witness for C4 at a concrete jpg request. -/
theorem C4_tiled_url_witness :
    countColon ("tile" ++ "." ++ "loc.gov" ++ "/" ++ "isvc" ++ ":" ++ "g"
      ++ ":" ++ "p" ++ "0") = 2 :=
  (C4_tiled_url ⟨"jpg", "full", "25", "0", "default"⟩
      ⟨"https", "tile", "loc.gov", fun f => if f = "jpg" then some "isvc" else none⟩
      "g" "p" "0" "isvc" (by decide) (by decide)).2
    (by decide) (by decide) (by decide) (by decide) (by decide) (by decide)

/-- C5: for the log format the builder returns the joined name, year and
    volume segments with the log extension; part and index are ignored
    entirely, so two calls differing only there agree; and the volume
    token is appended only once (assuming the literal segments do not
    themselves spell the volume token). -/
theorem C5_log_ignores_part_and_index :
    (∀ (ns : NameSegments) (part num part2 num2 : String),
       create_filename ns part num "log" = create_filename ns part2 num2 "log")
    ∧ (∀ (ns : NameSegments) (part num : String),
         create_filename ns part num "log"
           = with_suffix_dot (joinDash (ns.name
               ++ (if ns.year ≠ 0 then [toString ns.year] else [])
               ++ (if ns.vol ≠ "" then [vol_token ns.vol] else []))) "log")
    ∧ ∀ (ns : NameSegments) (part num : String),
        ns.vol ≠ "" → vol_token ns.vol ∉ ns.name →
        toString ns.year ≠ vol_token ns.vol →
        (create_filename_segs ns part num "log").count (vol_token ns.vol) = 1 := by
  refine ⟨?_, ?_, ?_⟩
  · intro ns part num part2 num2
    simp [create_filename, create_filename_segs]
  · intro ns part num
    simp [create_filename, create_filename_segs]
  · intro ns part num hv hnm hy
    have hsegs : create_filename_segs ns part num "log"
        = ns.name ++ (if ns.year ≠ 0 then [toString ns.year] else [])
          ++ [vol_token ns.vol] := by
      simp [create_filename_segs, hv]
    rw [hsegs, List.count_append, List.count_append]
    have h1 : ns.name.count (vol_token ns.vol) = 0 := List.count_eq_zero.mpr hnm
    have h2 : (if ns.year ≠ 0 then [toString ns.year] else []).count
        (vol_token ns.vol) = 0 := by
      by_cases hyy : ns.year ≠ 0
      · rw [if_pos hyy]
        simp [List.count_cons, hy]
      · rw [if_neg hyy]
        rfl
    have h3 : ([vol_token ns.vol] : List String).count (vol_token ns.vol) = 1 := by
      simp [List.count_cons]
    rw [h1, h2, h3]

/-- Witness for C5 at a concrete volume-bearing input. -/
theorem C5_log_ignores_part_and_index_witness :
    (create_filename_segs ⟨["m"], 1925, "2"⟩ "a" "7" "log").count (vol_token "2") = 1 :=
  C5_log_ignores_part_and_index.2.2 ⟨["m"], 1925, "2"⟩ "a" "7"
    (by decide) (by decide) (by decide)

/-- C6: with a non-log format and a given index string, the last filename
    segment is the index left-padded with zeros to at least four
    characters; indices already four or more characters long are appended
    unchanged.  The builder takes no zfill-width argument at all, so the
    fixed width four is independent of the width configured for range
    enumeration. -/
theorem C6_index_padded_to_four (ns : NameSegments) (part num format : String)
    (hf : format ≠ "log") (hn : num ≠ "") :
    create_filename_segs ns part num format
      = (ns.name ++ (if ns.year ≠ 0 then [toString ns.year] else [])
          ++ (if ns.vol ≠ "" then [vol_token ns.vol] else [])
          ++ (if ns.vol ≠ "" then [vol_token ns.vol] else [])
          ++ (if part ≠ "" then [part] else [])) ++ [num_token num]
    ∧ 4 ≤ (num_token num).length
    ∧ (4 ≤ num.length → num_token num = num) := by
  refine ⟨?_, ?_, ?_⟩
  · simp [create_filename_segs, hf, hn, List.append_assoc]
  · unfold num_token
    by_cases hlen : num.length < 4
    · rw [if_pos hlen, zfill_length]
      omega
    · rw [if_neg hlen]
      omega
  · intro h4
    unfold num_token
    rw [if_neg (by omega)]

/-- Witness for C6 at the example index 7. -/
theorem C6_index_padded_to_four_witness :
    create_filename_segs ⟨["atlas"], 0, ""⟩ "" "7" "jpg"
      = ((["atlas"] : List String) ++ [] ++ [] ++ [] ++ []) ++ [num_token "7"]
    ∧ 4 ≤ (num_token "7").length
    ∧ (4 ≤ ("7" : String).length → num_token "7" = "7") :=
  C6_index_padded_to_four ⟨["atlas"], 0, ""⟩ "" "7" "jpg" (by decide) (by decide)

/-- C7: a format missing from the service-path mapping makes create_url
    propagate the lookup failure in both branches; no URL is fabricated. -/
theorem C7_unconfigured_format_fails (opts : ParserArgs) (config : Config)
    (gmd idPrefix num : String)
    (h : config.service_path opts.format = none) :
    create_url opts config gmd idPrefix num = none := by
  unfold create_url
  split
  · rw [h]
    rfl
  · rw [h]
    rfl

/-- Witness for C7 with an empty service-path mapping. -/
theorem C7_unconfigured_format_fails_witness :
    create_url ⟨"png", "full", "25", "0", "default"⟩
      ⟨"https", "tile", "loc.gov", fun _ => none⟩ "g" "p" "0" = none :=
  C7_unconfigured_format_fails ⟨"png", "full", "25", "0", "default"⟩
    ⟨"https", "tile", "loc.gov", fun _ => none⟩ "g" "p" "0" rfl

/-- C8: for an absolute working directory and any filename the builder
    returned (a path name, hence separator-free), the resolved path is
    absolute and its final component is exactly that filename; and when
    the output directory is relative and no redundant separators are in
    play, the result is literally the concatenation of working directory,
    output directory and filename. -/
theorem C8_filepath_absolute_roundtrip (cwd out : String) (ns : NameSegments)
    (part num format fname : String)
    (hcwd : isAbsPath cwd = true)
    (hbuild : create_filename ns part num format = some fname)
    (hsep : ∀ c ∈ fname.data, c ≠ Char.ofNat 47) :
    isAbsPath (create_filepath cwd out fname) = true
    ∧ finalComponent (create_filepath cwd out fname) = fname
    ∧ (isAbsPath out = false → out ≠ "" → endsWithSlash out = false →
        endsWithSlash cwd = false →
        create_filepath cwd out fname = cwd ++ "/" ++ out ++ "/" ++ fname) := by
  have hfne : fname ≠ "" := create_filename_ne_empty ns part num format fname hbuild
  have hcne : cwd ≠ "" := isAbsPath_ne_empty cwd hcwd
  have hA : isAbsPath (joinComponent cwd out) = true := by
    unfold joinComponent
    by_cases h1 : isAbsPath out = true
    · rw [if_pos h1]
      exact h1
    · rw [if_neg h1]
      by_cases h2 : out = ""
      · rw [if_pos h2]
        exact hcwd
      · rw [if_neg h2, if_neg hcne]
        by_cases h3 : endsWithSlash cwd = true
        · rw [if_pos h3]
          exact isAbsPath_append cwd out hcwd
        · rw [if_neg h3]
          exact isAbsPath_append _ _ (isAbsPath_append cwd "/" hcwd)
  have hAne : joinComponent cwd out ≠ "" := isAbsPath_ne_empty _ hA
  obtain ⟨hfin, habs⟩ := joinComponent_final (joinComponent cwd out) fname hAne hfne hsep
  refine ⟨habs hA, hfin, ?_⟩
  intro houtabs houtne houtsl hcwdsl
  have hj1 : joinComponent cwd out = cwd ++ "/" ++ out := by
    unfold joinComponent
    rw [if_neg (by rw [houtabs]; decide), if_neg houtne, if_neg hcne,
      if_neg (by rw [hcwdsl]; decide)]
  show joinComponent (joinComponent cwd out) fname = cwd ++ "/" ++ out ++ "/" ++ fname
  rw [hj1]
  unfold joinComponent
  rw [if_neg (by rw [not_absPath_of_no_slash fname hsep]; decide), if_neg hfne,
    if_neg (isAbsPath_ne_empty _ (isAbsPath_append _ _ (isAbsPath_append cwd "/" hcwd))),
    if_neg (by rw [endsWithSlash_append (cwd ++ "/") out houtne, houtsl]; decide)]

/-- Witness for C8 at a concrete relative output directory. -/
theorem C8_filepath_absolute_roundtrip_witness :
    isAbsPath (create_filepath "/home" "data" "m.jpg") = true
    ∧ finalComponent (create_filepath "/home" "data" "m.jpg") = "m.jpg"
    ∧ (isAbsPath "data" = false → ("data" : String) ≠ "" →
        endsWithSlash "data" = false → endsWithSlash "/home" = false →
        create_filepath "/home" "data" "m.jpg"
          = "/home" ++ "/" ++ "data" ++ "/" ++ "m.jpg") :=
  C8_filepath_absolute_roundtrip "/home" "data" ⟨["m"], 0, ""⟩ "" "" "jpg" "m.jpg"
    (by decide) (by decide) (by decide)

/-- C9 counterexample: with the single name segment a.b and format jpg the
    builder returns a.jpg, because Path.with_suffix treats everything from
    the last interior dot as a suffix to replace; the output therefore does
    not start with the dash-joined name segments, refuting the claim for
    arbitrary inputs. -/
theorem C9_counterexample :
    create_filename ⟨["a.b"], 0, ""⟩ "" "" "jpg" = some "a.jpg"
    ∧ List.isPrefixOf (joinDash ["a.b"]).data ("a.jpg" : String).data = false := by
  decide

/-- C9 amended: for a non-log, nonempty, separator-free format, and inputs
    whose joined segment string is nonempty and dot-free, the output is the
    joined segments followed by the dot and the format, hence it ends with
    the format extension and starts with the dash-joined literal name
    segments. -/
theorem C9_amended_suffix_and_name_pre (ns : NameSegments)
    (part num format : String)
    (hf : format ≠ "log") (hfe : format ≠ "")
    (hfs : Char.ofNat 47 ∉ format.data)
    (hne : joinDash (create_filename_segs ns part num format) ≠ "")
    (hnd : ∀ c ∈ (joinDash (create_filename_segs ns part num format)).data,
      c ≠ Char.ofNat 46) :
    create_filename ns part num format
      = some (joinDash (create_filename_segs ns part num format) ++ "." ++ format)
    ∧ ∃ t, joinDash (create_filename_segs ns part num format)
        = joinDash ns.name ++ t := by
  constructor
  · unfold create_filename
    exact with_suffix_dot_no_dot _ _ hne hnd hfe hfs
  · have hsplit : create_filename_segs ns part num format
        = ns.name ++ ((if ns.year ≠ 0 then [toString ns.year] else [])
          ++ (if ns.vol ≠ "" then [vol_token ns.vol] else [])
          ++ (if ns.vol ≠ "" then [vol_token ns.vol] else [])
          ++ (if part ≠ "" then [part] else [])
          ++ (if num ≠ "" then [num_token num] else [])) := by
      simp [create_filename_segs, hf, List.append_assoc]
    rw [hsplit]
    exact joinDash_append_exists _ _

/-- Witness for the amended C9 at a concrete dot-free input. -/
theorem C9_amended_suffix_and_name_pre_witness :
    create_filename ⟨["atlas"], 0, ""⟩ "" "7" "jpg"
      = some (joinDash (create_filename_segs ⟨["atlas"], 0, ""⟩ "" "7" "jpg")
          ++ "." ++ "jpg")
    ∧ ∃ t, joinDash (create_filename_segs ⟨["atlas"], 0, ""⟩ "" "7" "jpg")
        = joinDash ["atlas"] ++ t :=
  C9_amended_suffix_and_name_pre ⟨["atlas"], 0, ""⟩ "" "7" "jpg"
    (by decide) (by decide) (by decide) (by decide) (by decide)

/-- C10: falsy optional inputs are treated as absent: an empty part or
    index string appends no token at all (in particular an empty index is
    not padded to 0000), and a zero year or empty volume leaves the year
    and volume tokens out of the segment list. -/
theorem C10_falsy_optionals_skipped (name : List String) (y : Nat)
    (v format : String) :
    create_filename_segs ⟨name, y, v⟩ "" "" format
      = name ++ (if y ≠ 0 then [toString y] else [])
        ++ (if v ≠ "" then
              (if format = "log" then [vol_token v] else [vol_token v, vol_token v])
            else [])
    ∧ create_filename_segs ⟨name, 0, ""⟩ "" "" format = name := by
  constructor
  · by_cases hl : format = "log"
    · by_cases hv : v ≠ ""
      · simp [create_filename_segs, hl, hv, List.append_assoc]
      · simp [create_filename_segs, hl, hv]
    · by_cases hv : v ≠ ""
      · simp [create_filename_segs, hl, hv, List.append_assoc]
      · simp [create_filename_segs, hl, hv]
  · simp [create_filename_segs]

/-- C2 counterexample: against a transport answering HTTP 404 (not a
    success status) to every URL, the loop still builds the URL for the
    next index, fetches it, and writes its body: main never inspects
    response.status_code, so a non-success status does not stop the run. -/
theorem C2_counterexample :
    runRetrieval notFoundCtx [twoIndexSeg]
      = [RunEvent.fetched
           "https://tile.loc.gov/isvc:g:p0/full/pct:25/0/default.jpg"
           (FetchResult.resp 404),
         RunEvent.wrote "/cwd/out/m-0000.jpg",
         RunEvent.fetched
           "https://tile.loc.gov/isvc:g:p1/full/pct:25/0/default.jpg"
           (FetchResult.resp 404),
         RunEvent.wrote "/cwd/out/m-0001.jpg"]
    ∧ ¬(200 ≤ 404 ∧ 404 < 300) := by
  decide

/-- C2 amended: what does stop the run is a raised transport exception
    during the fetch: the events are exactly those of the completed
    iterations followed by the failed fetch, identical for every choice of
    still-pending worklist, so no later index is ever processed.  A
    response, by contrast, is written out whatever its status code and the
    loop continues with the next index. -/
theorem C2_amended_abort_on_exception :
    (∀ (ctx : RunCtx) (l1 l2 l2' : List (PathSegment × Int)) (seg : PathSegment)
       (i : Int) (url : String),
       (∀ p ∈ l1, pairOk ctx p = true) →
       url_of ctx seg i = some url →
       ctx.fetch url = FetchResult.exn →
       runPairs ctx (l1 ++ (seg, i) :: l2)
         = runPairs ctx l1 ++ [RunEvent.fetched url FetchResult.exn]
       ∧ runPairs ctx (l1 ++ (seg, i) :: l2)
         = runPairs ctx (l1 ++ (seg, i) :: l2'))
    ∧ ∀ (ctx : RunCtx) (seg : PathSegment) (i : Int)
        (rest : List (PathSegment × Int)) (url fn : String) (status : Nat),
        url_of ctx seg i = some url →
        ctx.fetch url = FetchResult.resp status →
        create_filename ctx.fsegs seg.part (loop_num seg i) ctx.opts.format = some fn →
        runPairs ctx ((seg, i) :: rest)
          = RunEvent.fetched url (FetchResult.resp status)
            :: RunEvent.wrote (create_filepath ctx.cwd ctx.output fn)
            :: runPairs ctx rest := by
  constructor
  · intro ctx l1 l2 l2' seg i url h1 hu hx
    have hstep : ∀ l : List (PathSegment × Int),
        runPairs ctx ((seg, i) :: l) = [RunEvent.fetched url FetchResult.exn] := by
      intro l
      simp only [runPairs, hu, hx]
    refine ⟨?_, ?_⟩
    · rw [runPairs_append ctx l1 _ h1, hstep]
    · rw [runPairs_append ctx l1 _ h1, runPairs_append ctx l1 _ h1, hstep, hstep]
  · intro ctx seg i rest url fn status hu hr hn
    simp only [runPairs, hu, hr, hn]

/-- Witness for the amended C2: a raising transport on a two-index segment
    yields only the failed first fetch, whether or not an index remains
    pending. -/
theorem C2_amended_abort_on_exception_witness :
    runPairs exnCtx ([] ++ (twoIndexSeg, 0) :: [(twoIndexSeg, 1)])
      = runPairs exnCtx []
        ++ [RunEvent.fetched
             "https://tile.loc.gov/isvc:g:p0/full/pct:25/0/default.jpg"
             FetchResult.exn]
    ∧ runPairs exnCtx ([] ++ (twoIndexSeg, 0) :: [(twoIndexSeg, 1)])
      = runPairs exnCtx ([] ++ (twoIndexSeg, 0) :: []) :=
  C2_amended_abort_on_exception.1 exnCtx [] [(twoIndexSeg, 1)] [] twoIndexSeg 0
    "https://tile.loc.gov/isvc:g:p0/full/pct:25/0/default.jpg"
    (by intro p hp; exact absurd hp (List.not_mem_nil p))
    (by decide) (by decide)

end Retriever
